import Mathlib

/-!
A shallow embedding of the compile-commands toolset, three Python scripts:
`generate_compile_commands.py` (metadata generator), `compile_commands_build.py`
(build orchestrator) and `compile_commands_watch.py` (change watcher).

Pure logic is translated function-by-function.  Interactions with the
operating system (directory traversal, `stat`, subprocess execution) are
abstracted as explicit oracles, mirroring the narrow interfaces the scripts
use: a `FileSystem` oracle stands for `Path.rglob`/`Path.exists`/`stat`, an
exit-status predicate stands for `subprocess.run`, and a directory-entry list
stands for `Path.iterdir`.  Machine-level details (YAML parsing, argparse)
are out of scope, matching the specification's stated external collaborators.
-/

namespace CompileCommands

/-! ### String and path helpers, mirroring `str`/`pathlib` operations used by the scripts -/

/-- Split a character list at a separator character (the semantics of
`str.split(sep)` / `String.splitOn` for a one-character separator, written
structurally). -/
def splitOnChar (sep : Char) : List Char → List (List Char)
  | [] => [[]]
  | c :: cs =>
    let r := splitOnChar sep cs
    if c = sep then [] :: r
    else
      match r with
      | [] => [[c]]
      | w :: ws => (c :: w) :: ws

def strSplitOnChar (sep : Char) (s : String) : List String :=
  (splitOnChar sep s.toList).map String.mk

/-- Python `str.split()` as used on space-joined environment variable values:
split on whitespace, dropping empty tokens. -/
def pySplit (s : String) : List String :=
  (strSplitOnChar ' ' s).filter (fun t => t ≠ "")

/-- Python `" ".join(l)`. -/
def joinSpace : List String → String
  | [] => ""
  | [x] => x
  | x :: xs => x ++ " " ++ joinSpace xs

/-- Python `str.endswith` / glob `*<ext>` matching. -/
def strEndsWith (s e : String) : Bool := e.toList.isSuffixOf s.toList

def strDropRight (s : String) (k : Nat) : String :=
  String.mk (s.toList.take (s.toList.length - k))

/-- `pathlib.PurePath.suffix` of a path component: the extension after the
last dot of the final component, empty when there is no dot, when the dot is
the leading character, or when the dot is the final character. -/
def pathSuffix (name : String) : String :=
  let cs := name.toList
  let ext := (cs.reverse).takeWhile (fun c => c ≠ '.')
  if ext.length < cs.length ∧ ext.length ≠ 0 ∧ ext.length + 1 ≠ cs.length then
    String.mk ('.' :: ext.reverse)
  else ""

/-- `pathlib.PurePath.name`: the final component of a path. -/
def pathName (p : String) : String := (strSplitOnChar '/' p).getLastD p

/-- `pathlib.PurePath.stem`: the final component without its suffix. -/
def pathStem (p : String) : String :=
  let n := pathName p
  strDropRight n (pathSuffix n).length

def stripTrailingSlashes (s : String) : String :=
  String.mk ((s.toList.reverse.dropWhile (fun c => c = '/')).reverse)

/-- `str(Path(d) / n)` for a relative file name `n` (trailing slashes of the
directory are normalized away by `pathlib`). -/
def pathJoin (d n : String) : String :=
  if d = "" then n else stripTrailingSlashes d ++ "/" ++ n

/-! ### Config model (§3 of the project description schema)

Sections the scripts index unconditionally are required fields; keys the
scripts read through `.get(key, default)` or guard with `in` checks are
`Option`s (or lists defaulting to `[]`, which is observationally identical
to `.get(key, [])`). -/

structure ProjectSection where
  language : Option String
  standard : Option String
deriving DecidableEq

structure CompilerSection where
  compiler_path : Option String
  flags : List String
  defines : List String
deriving DecidableEq

structure LinkerSection where
  flags : List String
deriving DecidableEq

structure ModeConfig where
  output_dir : Option String
  output_name : Option String
  extra_flags : Option (List String)
  linker_flags : Option (List String)
  source_groups : Option (List String)
deriving DecidableEq

structure BuildSection where
  output : Option String
  output_dir : Option String
  linker : Option LinkerSection
  modes : Option (List (String × ModeConfig))
deriving DecidableEq

structure DependenciesSection where
  external_includes : Option (List String)
deriving DecidableEq

structure SourceGroup where
  name : Option String
  source_dirs : List String
  include_dirs : List String
  flags : Option (List String)
  defines : List String
deriving DecidableEq

structure Config where
  project : ProjectSection
  compiler : CompilerSection
  build : BuildSection
  dependencies : Option DependenciesSection
  source_groups : List SourceGroup
deriving DecidableEq

/-! ### Environment resolver (`compile_commands_build.setup_environment`, lines 16-59)

A process environment is a map from variable names to optional values, the
shape of the `os.environ` copy the script mutates.  The four sequential
blocks of `setup_environment` become four steps; their composition is the
resolver. -/

abbrev Env := String → Option String

/-- `env[k] = v` on a Python dict. -/
def envInsert (k v : String) (e : Env) : Env :=
  fun x => if x = k then some v else e x

def cppFamily : List String := ["c++", "cpp", "cxx"]

/-- `config["project"].get("language", "c")`. -/
def configLanguage (c : Config) : String := c.project.language.getD "c"

/-- `language in ["c++", "cpp", "cxx"]`. -/
def isCpp (c : Config) : Bool := cppFamily.contains (configLanguage c)

def compilerVar (c : Config) : String := if isCpp c then "CXX" else "CC"

def flagsVar (c : Config) : String := if isCpp c then "CXXFLAGS" else "CFLAGS"

def defaultCompiler (c : Config) : String := if isCpp c then "g++" else "gcc"

/-- Lines 24-30: set CC/CXX from `compiler.compiler_path` only if not already set. -/
def envStep1 (c : Config) (e : Env) : Env :=
  if (e (compilerVar c)).isSome then e
  else envInsert (compilerVar c) (c.compiler.compiler_path.getD (defaultCompiler c)) e

/-- `compiler.flags` plus mode-specific `extra_flags` when present (lines 35-38). -/
def resolvedFlags (c : Config) (m : ModeConfig) : List String :=
  c.compiler.flags ++ m.extra_flags.getD []

/-- Lines 32-39: set CFLAGS/CXXFLAGS only if not already set. -/
def envStep2 (c : Config) (m : ModeConfig) (e : Env) : Env :=
  if (e (flagsVar c)).isSome then e
  else envInsert (flagsVar c) (joinSpace (resolvedFlags c m)) e

/-- The space-joined `-D<define>` rendering of `compiler.defines` (line 44). -/
def cppflagsValue (c : Config) : String :=
  joinSpace (c.compiler.defines.map (fun d => "-D" ++ d))

/-- Lines 41-46: set CPPFLAGS only if not already set and the rendering is non-empty. -/
def envStep3 (c : Config) (e : Env) : Env :=
  if (e "CPPFLAGS").isSome then e
  else if cppflagsValue c = "" then e
  else envInsert "CPPFLAGS" (cppflagsValue c) e

/-- `build.linker.flags` plus mode-specific `linker_flags` when present (lines 50-55). -/
def ldflagsValue (c : Config) (m : ModeConfig) : List String :=
  (match c.build.linker with
   | some l => l.flags
   | none => []) ++ m.linker_flags.getD []

/-- Lines 48-57: set LDFLAGS only if not already set and the flag list is non-empty. -/
def envStep4 (c : Config) (m : ModeConfig) (e : Env) : Env :=
  if (e "LDFLAGS").isSome then e
  else if ldflagsValue c m = [] then e
  else envInsert "LDFLAGS" (joinSpace (ldflagsValue c m)) e

/-- `setup_environment(config, mode_config)` starting from the ambient
`os.environ` copy. -/
def setup_environment (c : Config) (m : ModeConfig) (ambient : Env) : Env :=
  envStep4 c m (envStep3 c (envStep2 c m (envStep1 c ambient)))

/-! ### Build-mode command synthesis (`compile_commands_build.py`) -/

/-- `config["dependencies"]["external_includes"]` guarded by the `in` checks
of `get_include_flags` (lines 71-73); the generator reads the same data via
`.get` with defaults. -/
def externalIncludeDirs (c : Config) : List String :=
  match c.dependencies with
  | some deps => deps.external_includes.getD []
  | none => []

/-- `get_include_flags(group, config)` (lines 62-75): group include
directories first, then the declared external includes, each as `-I<dir>`. -/
def get_include_flags (group : SourceGroup) (c : Config) : List String :=
  group.include_dirs.map (fun d => "-I" ++ d) ++
    (externalIncludeDirs c).map (fun d => "-I" ++ d)

/-- `Path(output_dir) / (Path(source_file).stem + ".o")` (line 130). -/
def objectFileFor (output_dir source_file : String) : String :=
  pathJoin output_dir (pathStem source_file ++ ".o")

/-- Line 105: `compiler = str(env.get("CXX" if is_cpp else "CC"))`; Python's
`str(None)` renders a missing variable as the string `"None"`. -/
def buildCompilerToken (c : Config) (env : Env) : String :=
  (env (if isCpp c then "CXX" else "CC")).getD "None"

/-- Lines 113-116: compile flags drawn from the environment; note the `elif`,
which falls back to `CFLAGS` even for a C++ project when `CXXFLAGS` is unset. -/
def buildFlagTokens (c : Config) (env : Env) : List String :=
  if isCpp c && (env "CXXFLAGS").isSome then pySplit ((env "CXXFLAGS").getD "")
  else if (env "CFLAGS").isSome then pySplit ((env "CFLAGS").getD "")
  else []

/-- Lines 119-120: preprocessor flags from `CPPFLAGS` when present. -/
def buildCppTokens (env : Env) : List String :=
  if (env "CPPFLAGS").isSome then pySplit ((env "CPPFLAGS").getD "") else []

/-- `build_compile_command(config, group, source_file, output_dir, env)`
(lines 97-133).  The script indexes `config["project"]["standard"]`
unconditionally at line 110, so a missing standard raises `KeyError`;
that failure is modelled as `none`. -/
def build_compile_command (c : Config) (group : SourceGroup)
    (source_file output_dir : String) (env : Env) :
    Option (List String × String) :=
  match c.project.standard with
  | none => none
  | some std =>
    let obj := objectFileFor output_dir source_file
    some (buildCompilerToken c env :: ("-std=" ++ std) ::
      (buildFlagTokens c env ++ buildCppTokens env ++ group.flags.getD [] ++
        get_include_flags group c ++ ["-c", source_file, "-o", obj]), obj)

/-! ### Metadata-mode command synthesis (`generate_compile_commands.py`) -/

/-- `config.get("compiler", {}).get("compiler_path", "gcc")` (line 66). -/
def metaCompiler (c : Config) : String := c.compiler.compiler_path.getD "gcc"

/-- The standard-flag tokens of the generator: `-std=<standard>` only when
`"standard" in project_config` (lines 72-74). -/
def metaStdTokens (c : Config) : List String :=
  match c.project.standard with
  | some s => ["-std=" ++ s]
  | none => []

/-- The `cmd_parts` list assembled by the generator's
`build_compile_command` (lines 60-116). -/
def gen_cmd_parts (file_path : String) (c : Config) (group : SourceGroup) :
    List String :=
  metaCompiler c ::
    (metaStdTokens c ++ c.compiler.flags ++ group.flags.getD [] ++
      group.include_dirs.map (fun d => "-I" ++ d) ++
      (externalIncludeDirs c).map (fun d => "-I" ++ d) ++
      c.compiler.defines.map (fun d => "-D" ++ d) ++
      group.defines.map (fun d => "-D" ++ d) ++
      ["-c", "-o", objectFileFor (c.build.output_dir.getD "build/") file_path,
        file_path])

/-- The `{directory, command, file}` record returned per file (lines 118-122);
`Path.cwd()` is an ambient parameter. -/
structure CommandRecord where
  directory : String
  command : String
  file : String
deriving DecidableEq

def gen_build_compile_command (cwd file_path : String) (c : Config)
    (group : SourceGroup) : CommandRecord :=
  { directory := cwd
    command := joinSpace (gen_cmd_parts file_path c group)
    file := file_path }

/-! ### Source discovery

`FileSystem.listDir d` stands for the recursive enumeration `Path(d).rglob`
(`none` when the directory does not exist); `mtime` stands for
`stat().st_mtime`. -/

structure FileSystem where
  listDir : String → Option (List String)
  mtime : String → Nat

def insertSorted (x : String) : List String → List String
  | [] => [x]
  | y :: ys => if x ≤ y then x :: y :: ys else y :: insertSorted x ys

/-- Python `sorted` on the discovered path list. -/
def sortStrings : List String → List String
  | [] => []
  | x :: xs => insertSorted x (sortStrings xs)

/-- `generate_compile_commands.find_source_files(source_dirs, extensions)`
(lines 38-57): default extension list `[".c"]`, missing directories warned
and skipped, `rglob(f"*{ext}")` per extension, result sorted. -/
def find_source_files_gen (fs : FileSystem) (source_dirs : List String)
    (extensions : Option (List String)) : List String :=
  let exts := extensions.getD [".c"]
  sortStrings (source_dirs.flatMap (fun d =>
    match fs.listDir d with
    | none => []
    | some entries => exts.flatMap (fun e => entries.filter (fun f => strEndsWith f e))))

/-- `generate_compile_commands.generate_compile_commands` (lines 125-156):
every source group contributes one record per discovered file; discovery is
invoked with the default extension argument. -/
def generate_compile_commands (cwd : String) (fs : FileSystem) (c : Config) :
    List CommandRecord :=
  c.source_groups.flatMap (fun group =>
    (find_source_files_gen fs group.source_dirs none).map
      (fun f => gen_build_compile_command cwd f c group))

/-- The fixed extension set of `compile_commands_build.find_source_files`
(line 80). -/
def buildExtensions : List String := [".c", ".cpp", ".cc", ".cxx"]

/-- `compile_commands_build.find_source_files(source_dirs)` (lines 78-86):
`rglob("*")` filtered by `suffix in extensions`, no language dependency. -/
def find_source_files_build (fs : FileSystem) (source_dirs : List String) :
    List String :=
  source_dirs.flatMap (fun d =>
    match fs.listDir d with
    | none => []
    | some entries => entries.filter (fun f => buildExtensions.contains (pathSuffix f)))

/-! ### Mode validation (`compile_commands_build.main`, lines 251-269) -/

inductive BuildError where
  | modeNotFound (mode : String)
  | missingSourceGroups (mode : String)
deriving DecidableEq

/-- First-match association lookup, the dict indexing of the loaded config. -/
def dictLookup {β : Type} : List (String × β) → String → Option β
  | [], _ => none
  | (k, v) :: rest, key => if k = key then some v else dictLookup rest key

def modesLookup (c : Config) (mode : String) : Option ModeConfig :=
  match c.build.modes with
  | none => none
  | some modes => dictLookup modes mode

/-- The validation prefix of `main` for a build request (lines 251-269):
`ModeNotFound` when `"modes" not in config["build"]` or the mode key is
absent; `MissingSourceGroups` when the mode's `source_groups` key is absent
or the list is empty (the script prints two distinct messages, both the
specification's `MissingSourceGroups`). -/
def validate_mode (c : Config) (mode : String) : Except BuildError ModeConfig :=
  match modesLookup c mode with
  | none => .error (.modeNotFound mode)
  | some mc =>
    match mc.source_groups with
    | none => .error (.missingSourceGroups mode)
    | some [] => .error (.missingSourceGroups mode)
    | some (_ :: _) => .ok mc

/-! ### Compile/link orchestration (`compile_commands_build.main`, lines 322-352)

The external compiler is abstracted by an exit-status predicate per source
file (the script consumes only the exit status).  `sys.exit(1)` on the first
failing compile truncates the event trace; linking happens only after the
loop completes. -/

inductive BuildEvent where
  | compileInvoked (file : String)
  | compileFailed (file : String)
  | linkInvoked
  | linkFailed
  | done
deriving DecidableEq

/-- The compile loop (lines 324-338): events emitted and whether the loop
completed without `sys.exit`. -/
def compileAll (files : List String) (exitOk : String → Bool) :
    List BuildEvent × Bool :=
  match files with
  | [] => ([], true)
  | f :: rest =>
    if exitOk f then
      let r := compileAll rest exitOk
      (.compileInvoked f :: r.1, r.2)
    else ([.compileInvoked f, .compileFailed f], false)

/-- Compile loop followed by the link step (lines 340-354). -/
def runBuildPipeline (files : List String) (exitOk : String → Bool)
    (linkOk : Bool) : List BuildEvent :=
  let r := compileAll files exitOk
  if r.2 then
    r.1 ++ [.linkInvoked] ++ (if linkOk then [.done] else [.linkFailed])
  else r.1

/-! ### Clean (`compile_commands_build.clean_build_directory`, lines 158-184)

A directory's direct contents (`iterdir`) are a list of entries, each a name
with a directory bit; `unlink` on a directory raises, modelled as an error. -/

structure DirEntry where
  name : String
  isDir : Bool
deriving DecidableEq

inductive CleanError where
  | isADirectory (name : String)
deriving DecidableEq

/-- Line 172: `item.suffix == ".o" or item.suffix in ["", ".exe", ".elf"]`. -/
def cleanTarget (e : DirEntry) : Bool :=
  pathSuffix e.name == ".o" || [("" : String), ".exe", ".elf"].contains (pathSuffix e.name)

/-- The removal loop (lines 170-176): unlink each matching entry, counting
removals; `item.unlink()` on a directory raises. -/
def cleanGo : List DirEntry → Except CleanError (Nat × List DirEntry)
  | [] => .ok (0, [])
  | e :: rest =>
    if cleanTarget e then
      if e.isDir then .error (.isADirectory e.name)
      else
        match cleanGo rest with
        | .error err => .error err
        | .ok (n, rem) => .ok (n + 1, rem)
    else
      match cleanGo rest with
      | .error err => .error err
      | .ok (n, rem) => .ok (n, e :: rem)

structure CleanResult where
  removed : Nat
  remaining : List DirEntry
  dirRemoved : Bool
deriving DecidableEq

/-- `clean_build_directory(output_dir)` over the directory's entry list
(`none` = directory does not exist, lines 162-164: a no-op); afterwards the
directory itself is removed when nothing remains (lines 178-182). -/
def clean_build_directory (dir : Option (List DirEntry)) :
    Except CleanError (Option CleanResult) :=
  match dir with
  | none => .ok none
  | some entries =>
    match cleanGo entries with
    | .error err => .error err
    | .ok (n, rem) =>
      .ok (some { removed := n, remaining := rem, dirRemoved := rem.isEmpty })

/-- The directory state left behind by a clean run, fed to a second run. -/
def dirStateAfter (entries : List DirEntry) : Option (List DirEntry) :=
  match clean_build_directory (some entries) with
  | .ok (some res) => if res.dirRemoved then none else some res.remaining
  | _ => some entries

def cleanSecondRun (entries : List DirEntry) :
    Except CleanError (Option CleanResult) :=
  clean_build_directory (dirStateAfter entries)

/-- The clean-all-modes loop of `main` (lines 224-228): each mode's output
directory cleaned in turn; an exception propagates. -/
def clean_modes (modeDirs : List (Option (List DirEntry))) :
    Except CleanError (List (Option CleanResult)) :=
  match modeDirs with
  | [] => .ok []
  | d :: rest =>
    match clean_build_directory d with
    | .error err => .error err
    | .ok r =>
      match clean_modes rest with
      | .error err => .error err
      | .ok rs => .ok (r :: rs)

/-- The outcome `clean_build_directory` produces on a directory of plain
files: artifacts removed and counted, the rest kept, the directory dropped
when it becomes empty. -/
def cleanOutcome (d : Option (List DirEntry)) : Option CleanResult :=
  match d with
  | none => none
  | some entries =>
    some { removed := (entries.filter cleanTarget).length
           remaining := entries.filter (fun e => !cleanTarget e)
           dirRemoved := (entries.filter (fun e => !cleanTarget e)).isEmpty }

/-! ### Change watcher (`compile_commands_watch.py`) -/

/-- Lines 48-51: extension list by declared language; C++-family projects
watch only `.cpp/.cc/.cxx`, every other language watches `.c` and `.h`. -/
def watch_extensions (c : Config) : List String :=
  if cppFamily.contains (configLanguage c) then [".cpp", ".cc", ".cxx"]
  else [".c", ".h"]

/-- The directories enumerated by `_watched_dirs` before deduplication:
each group's `source_dirs` then `include_dirs` (lines 33-40). -/
def declaredWatchDirs (c : Config) : List String :=
  c.source_groups.flatMap (fun g => g.source_dirs ++ g.include_dirs)

/-- `list({...})`: deduplication by set construction (Python set order is
unspecified; any duplicate-free enumeration is a faithful model). -/
def setAsList : List String → List String
  | [] => []
  | d :: rest => if d ∈ rest then setAsList rest else d :: setAsList rest

/-- `_watched_dirs(config)` (lines 31-41): declared source and include
directories, existing only, deduplicated. -/
def watched_dirs (fs : FileSystem) (c : Config) : List String :=
  setAsList ((declaredWatchDirs c).filter (fun d => (fs.listDir d).isSome))

/-- The files visited by `_snapshot`: `d.rglob(f"*{ext}")` per watched
directory and extension (lines 24-27). -/
def snapshotFiles (fs : FileSystem) (dirs exts : List String) : List String :=
  dirs.flatMap (fun d => exts.flatMap (fun e =>
    ((fs.listDir d).getD []).filter (fun f => strEndsWith f e)))

/-- `_snapshot(dirs, extensions)` (lines 21-28): the mtime dict, as its
entry list. -/
def snapshot_mtimes (fs : FileSystem) (dirs exts : List String) :
    List (String × Nat) :=
  (snapshotFiles fs dirs exts).map (fun f => (f, fs.mtime f))

/-- Dict key lookup on the snapshot's entry list. -/
def snapLookup : List (String × Nat) → String → Option Nat
  | [], _ => none
  | (k, v) :: rest, p => if k = p then some v else snapLookup rest p

/-- Python dict equality `current != last` negated: equal key sets with equal
values. -/
def snapshotEquals (a b : List (String × Nat)) : Bool :=
  a.all (fun kv => snapLookup b kv.1 == some kv.2) &&
  b.all (fun kv => snapLookup a kv.1 == some kv.2)

/-- One iteration of the polling loop body (lines 65-74): a changed snapshot
triggers exactly one regeneration and replaces the stored snapshot. -/
def watch_step (last current : List (String × Nat)) :
    Nat × List (String × Nat) :=
  if snapshotEquals current last then (0, last) else (1, current)

/-! ### Metadata write/verify traces (generator `main` lines 190-210, watch
lines 56-74)

Only the order of externally visible write/verify actions matters for the
self-verification property; prints are kept to preserve the line structure. -/

inductive MetaAction where
  | writeMetadata
  | verifyMetadata
  | printInfo
deriving DecidableEq

/-- The tail of the generator's `main` after command generation: empty
command list short-circuits with a warning (lines 186-188); otherwise write,
report, re-open and parse the written file, and exit non-zero when the parse
fails (lines 190-210).  The returned flag is process success. -/
def generator_main_trace (records_nonempty parse_ok : Bool) :
    List MetaAction × Bool :=
  if records_nonempty then
    ([.writeMetadata, .printInfo, .verifyMetadata, .printInfo], parse_ok)
  else ([.printInfo], true)

/-- The watch startup write (lines 56-60): dump, two prints, no verification. -/
def watch_startup_trace : List MetaAction := [.writeMetadata, .printInfo, .printInfo]

/-- The watch regeneration body on a detected change (lines 70-74): print,
dump, print, no verification. -/
def watch_regen_trace : List MetaAction := [.printInfo, .writeMetadata, .printInfo]

/-- Every write of the metadata file is followed, later in the same trace, by
a parse-verification of the written file. -/
def everyWriteVerified : List MetaAction → Bool
  | [] => true
  | .writeMetadata :: rest => rest.contains .verifyMetadata && everyWriteVerified rest
  | _ :: rest => everyWriteVerified rest

/-! ### Module names (`compile_commands_watch.py` line 18) -/

/-- The module names the repository's three source files provide. -/
def repository_modules : List String :=
  ["generate_compile_commands", "compile_commands_build", "compile_commands_watch"]

/-- The generator module name the watcher imports
(`from compile_commands_generate import ...`). -/
def watch_imported_generator_module : String := "compile_commands_generate"

/-- Whether the watcher's generator import resolves against the modules this
repository ships. -/
def watch_import_resolves : Bool :=
  repository_modules.contains watch_imported_generator_module

/-! ### Sample configurations used by concrete witnesses and counterexamples -/

def grp0 : SourceGroup :=
  { name := some "core", source_dirs := ["src"], include_dirs := ["include"]
    flags := some ["-fPIC"], defines := ["CORE"] }

def mode0 : ModeConfig :=
  { output_dir := some "build/debug", output_name := none
    extra_flags := some ["-g"], linker_flags := some ["-static"]
    source_groups := some ["core"] }

def cfg0 : Config :=
  { project := { language := some "c", standard := some "c11" }
    compiler := { compiler_path := some "gcc", flags := ["-Wall"], defines := ["DEBUG"] }
    build := { output := some "app", output_dir := some "build"
               linker := some { flags := ["-lm"] }, modes := some [("debug", mode0)] }
    dependencies := some { external_includes := some ["/opt/ext/include"] }
    source_groups := [grp0] }

def grpCpp : SourceGroup :=
  { name := some "app", source_dirs := ["src"], include_dirs := ["inc"]
    flags := none, defines := [] }

/-- A C++-family project declaring one source group. -/
def cfgCpp : Config :=
  { project := { language := some "cpp", standard := none }
    compiler := { compiler_path := none, flags := [], defines := [] }
    build := { output := none, output_dir := none, linker := none, modes := none }
    dependencies := none
    source_groups := [grpCpp] }

/-- A filesystem whose `src` directory holds one C++ source and one C source. -/
def fs5 : FileSystem :=
  { listDir := fun d => if d = "src" then some ["src/a.cpp", "src/b.c"] else none
    mtime := fun _ => 0 }

/-- A filesystem whose `src` directory holds a C++ source and a header, and
whose `inc` directory holds a header. -/
def fsW : FileSystem :=
  { listDir := fun d =>
      if d = "src" then some ["src/b.cpp", "src/a.h"]
      else if d = "inc" then some ["inc/x.hpp"]
      else none
    mtime := fun _ => 5 }

/-! ### Environment resolver lemmas -/

theorem envStep1_preserve (c : Config) {e : Env} {x w : String}
    (h : e x = some w) : envStep1 c e x = some w := by
  unfold envStep1
  split
  · exact h
  · rename_i hk
    unfold envInsert
    by_cases hx : x = compilerVar c
    · subst hx; rw [h] at hk; simp at hk
    · simp only [if_neg hx]; exact h

theorem envStep2_preserve (c : Config) (m : ModeConfig) {e : Env} {x w : String}
    (h : e x = some w) : envStep2 c m e x = some w := by
  unfold envStep2
  split
  · exact h
  · rename_i hk
    unfold envInsert
    by_cases hx : x = flagsVar c
    · subst hx; rw [h] at hk; simp at hk
    · simp only [if_neg hx]; exact h

theorem envStep3_preserve (c : Config) {e : Env} {x w : String}
    (h : e x = some w) : envStep3 c e x = some w := by
  unfold envStep3
  split
  · exact h
  · rename_i hk
    split
    · exact h
    · unfold envInsert
      by_cases hx : x = "CPPFLAGS"
      · subst hx; rw [h] at hk; simp at hk
      · simp only [if_neg hx]; exact h

theorem envStep4_preserve (c : Config) (m : ModeConfig) {e : Env} {x w : String}
    (h : e x = some w) : envStep4 c m e x = some w := by
  unfold envStep4
  split
  · exact h
  · rename_i hk
    split
    · exact h
    · unfold envInsert
      by_cases hx : x = "LDFLAGS"
      · subst hx; rw [h] at hk; simp at hk
      · simp only [if_neg hx]; exact h

theorem setup_environment_preserve (c : Config) (m : ModeConfig) {a : Env}
    {x w : String} (h : a x = some w) : setup_environment c m a x = some w :=
  envStep4_preserve c m (envStep3_preserve c (envStep2_preserve c m (envStep1_preserve c h)))

theorem envStep1_preserve_isSome (c : Config) {e : Env} {x : String}
    (h : (e x).isSome = true) : ((envStep1 c e) x).isSome = true := by
  obtain ⟨w, hw⟩ := Option.isSome_iff_exists.mp h
  rw [envStep1_preserve c hw]; rfl

theorem envStep2_preserve_isSome (c : Config) (m : ModeConfig) {e : Env} {x : String}
    (h : (e x).isSome = true) : ((envStep2 c m e) x).isSome = true := by
  obtain ⟨w, hw⟩ := Option.isSome_iff_exists.mp h
  rw [envStep2_preserve c m hw]; rfl

theorem envStep3_preserve_isSome (c : Config) {e : Env} {x : String}
    (h : (e x).isSome = true) : ((envStep3 c e) x).isSome = true := by
  obtain ⟨w, hw⟩ := Option.isSome_iff_exists.mp h
  rw [envStep3_preserve c hw]; rfl

theorem envStep4_preserve_isSome (c : Config) (m : ModeConfig) {e : Env} {x : String}
    (h : (e x).isSome = true) : ((envStep4 c m e) x).isSome = true := by
  obtain ⟨w, hw⟩ := Option.isSome_iff_exists.mp h
  rw [envStep4_preserve c m hw]; rfl

theorem envStep1_sets (c : Config) (e : Env) :
    ((envStep1 c e) (compilerVar c)).isSome = true := by
  unfold envStep1
  split
  · assumption
  · simp [envInsert]

theorem envStep2_sets (c : Config) (m : ModeConfig) (e : Env) :
    ((envStep2 c m e) (flagsVar c)).isSome = true := by
  unfold envStep2
  split
  · assumption
  · simp [envInsert]

theorem envStep3_sets (c : Config) (e : Env) (h : cppflagsValue c ≠ "") :
    ((envStep3 c e) "CPPFLAGS").isSome = true := by
  unfold envStep3
  by_cases hk : (e "CPPFLAGS").isSome = true
  · rw [if_pos hk]; exact hk
  · rw [if_neg hk, if_neg h]; simp [envInsert]

theorem envStep4_sets (c : Config) (m : ModeConfig) (e : Env)
    (h : ldflagsValue c m ≠ []) :
    ((envStep4 c m e) "LDFLAGS").isSome = true := by
  unfold envStep4
  by_cases hk : (e "LDFLAGS").isSome = true
  · rw [if_pos hk]; exact hk
  · rw [if_neg hk, if_neg h]; simp [envInsert]

theorem envStep1_noop (c : Config) {e : Env}
    (h : (e (compilerVar c)).isSome = true) : envStep1 c e = e := by
  unfold envStep1; rw [if_pos h]

theorem envStep2_noop (c : Config) (m : ModeConfig) {e : Env}
    (h : (e (flagsVar c)).isSome = true) : envStep2 c m e = e := by
  unfold envStep2; rw [if_pos h]

theorem envStep3_noop (c : Config) {e : Env}
    (h : (e "CPPFLAGS").isSome = true ∨ cppflagsValue c = "") :
    envStep3 c e = e := by
  unfold envStep3
  rcases h with h | h
  · rw [if_pos h]
  · by_cases hk : (e "CPPFLAGS").isSome = true
    · rw [if_pos hk]
    · rw [if_neg hk, if_pos h]

theorem envStep4_noop (c : Config) (m : ModeConfig) {e : Env}
    (h : (e "LDFLAGS").isSome = true ∨ ldflagsValue c m = []) :
    envStep4 c m e = e := by
  unfold envStep4
  rcases h with h | h
  · rw [if_pos h]
  · by_cases hk : (e "LDFLAGS").isSome = true
    · rw [if_pos hk]
    · rw [if_neg hk, if_pos h]

theorem setup_environment_compiler_isSome (c : Config) (m : ModeConfig) (a : Env) :
    ((setup_environment c m a) (compilerVar c)).isSome = true :=
  envStep4_preserve_isSome c m (envStep3_preserve_isSome c
    (envStep2_preserve_isSome c m (envStep1_sets c a)))

theorem setup_environment_flags_isSome (c : Config) (m : ModeConfig) (a : Env) :
    ((setup_environment c m a) (flagsVar c)).isSome = true :=
  envStep4_preserve_isSome c m (envStep3_preserve_isSome c
    (envStep2_sets c m (envStep1 c a)))

theorem setup_environment_cppflags_isSome (c : Config) (m : ModeConfig) (a : Env)
    (h : cppflagsValue c ≠ "") :
    ((setup_environment c m a) "CPPFLAGS").isSome = true :=
  envStep4_preserve_isSome c m (envStep3_sets c _ h)

theorem setup_environment_ldflags_isSome (c : Config) (m : ModeConfig) (a : Env)
    (h : ldflagsValue c m ≠ []) :
    ((setup_environment c m a) "LDFLAGS").isSome = true :=
  envStep4_sets c m _ h

theorem setup_environment_idem (c : Config) (m : ModeConfig) (a : Env) :
    setup_environment c m (setup_environment c m a) = setup_environment c m a := by
  have h1 := setup_environment_compiler_isSome c m a
  have h2 := setup_environment_flags_isSome c m a
  conv_lhs => rw [setup_environment]
  rw [envStep1_noop c h1, envStep2_noop c m h2]
  rw [envStep3_noop c ?h3, envStep4_noop c m ?h4]
  case h3 =>
    by_cases hc : cppflagsValue c = ""
    · exact Or.inr hc
    · exact Or.inl (setup_environment_cppflags_isSome c m a hc)
  case h4 =>
    by_cases hl : ldflagsValue c m = []
    · exact Or.inr hl
    · exact Or.inl (setup_environment_ldflags_isSome c m a hl)

/-- C2: environment resolution is override-safe (every variable already
present in the ambient environment keeps exactly its ambient value; no
variable is cleared or overwritten) and idempotent (resolving the resolver's
own output changes nothing). -/
theorem resolve_env_override_safe_and_idempotent (c : Config) (m : ModeConfig)
    (a : Env) :
    (∀ x w, a x = some w → setup_environment c m a x = some w) ∧
    setup_environment c m (setup_environment c m a) = setup_environment c m a :=
  ⟨fun _ _ h => setup_environment_preserve c m h, setup_environment_idem c m a⟩

/-- Witness for C2: with `CC=clang` pre-set in the ambient environment,
resolution leaves `CC` at `clang` even though the config's compiler path is
`gcc`. -/
theorem resolve_env_override_safe_and_idempotent_witness :
    setup_environment cfg0 mode0 (fun _ => some "clang") "CC" = some "clang" :=
  (resolve_env_override_safe_and_idempotent cfg0 mode0 (fun _ => some "clang")).1
    "CC" "clang" rfl

/-! ### C1: compile-command token sequences -/

theorem pySplit_empty : pySplit "" = [] := rfl

/-- Modelled from the spec: the tail (after the compiler token) of the §4.4
build-mode sequence `<resolved_compile_flags> <resolved_preprocessor_flags>
<group_flags> <include_flags(group)> <include_flags(external)> -c <file> -o
<output_dir>/<stem>.o`. -/
def specBuildModeTail (c : Config) (group : SourceGroup)
    (source_file output_dir : String) (env : Env) : List String :=
  pySplit ((env (flagsVar c)).getD "") ++ pySplit ((env "CPPFLAGS").getD "") ++
    group.flags.getD [] ++ get_include_flags group c ++
    ["-c", source_file, "-o", objectFileFor output_dir source_file]

/-- Modelled from the spec: the full build-mode token sequence exactly as the
claim states it — it carries no standard-flag token. -/
def specBuildModeTokens (c : Config) (group : SourceGroup)
    (source_file output_dir : String) (env : Env) : List String :=
  (env (compilerVar c)).getD "" ::
    specBuildModeTail c group source_file output_dir env

/-- The amended build-mode sequence: identical, except that the
`-std=<standard>` token follows the compiler token. -/
def specBuildModeTokensStd (c : Config) (group : SourceGroup)
    (source_file output_dir : String) (env : Env) (std : String) : List String :=
  (env (compilerVar c)).getD "" :: ("-std=" ++ std) ::
    specBuildModeTail c group source_file output_dir env

/-- Modelled from the spec: the §4.4 metadata-mode token sequence
`compiler standard_flag global_flags group_flags include_flags(group)
include_flags(external) global_defines group_defines -c -o <obj> <file>`,
with the standard-flag segment passed in. -/
def specMetadataTokens (c : Config) (group : SourceGroup) (file : String)
    (stdTok : List String) : List String :=
  metaCompiler c ::
    (stdTok ++ c.compiler.flags ++ group.flags.getD [] ++
      group.include_dirs.map (fun d => "-I" ++ d) ++
      (externalIncludeDirs c).map (fun d => "-I" ++ d) ++
      c.compiler.defines.map (fun d => "-D" ++ d) ++
      group.defines.map (fun d => "-D" ++ d) ++
      ["-c", "-o", objectFileFor (c.build.output_dir.getD "build/") file, file])

theorem buildCompilerToken_resolved (c : Config) (m : ModeConfig) (a : Env) :
    buildCompilerToken c (setup_environment c m a) =
      ((setup_environment c m a) (compilerVar c)).getD "" := by
  obtain ⟨cv, hcv⟩ :=
    Option.isSome_iff_exists.mp (setup_environment_compiler_isSome c m a)
  simp only [compilerVar] at hcv ⊢
  unfold buildCompilerToken
  rw [hcv]
  rfl

theorem buildFlagTokens_resolved (c : Config) (m : ModeConfig) (a : Env) :
    buildFlagTokens c (setup_environment c m a) =
      pySplit (((setup_environment c m a) (flagsVar c)).getD "") := by
  obtain ⟨fv, hfv⟩ :=
    Option.isSome_iff_exists.mp (setup_environment_flags_isSome c m a)
  unfold buildFlagTokens
  cases hcpp : isCpp c
  · have hv : flagsVar c = "CFLAGS" := by simp [flagsVar, hcpp]
    rw [hv] at hfv ⊢
    simp [hcpp, hfv]
  · have hv : flagsVar c = "CXXFLAGS" := by simp [flagsVar, hcpp]
    rw [hv] at hfv ⊢
    simp [hcpp, hfv]

theorem buildCppTokens_eq (env : Env) :
    buildCppTokens env = pySplit ((env "CPPFLAGS").getD "") := by
  unfold buildCppTokens
  cases hpp : env "CPPFLAGS" <;> simp [hpp, pySplit_empty]

/-- C1 (amended): over a resolved environment, the build-mode compile command
is exactly the claimed token sequence with `-std=<standard>` inserted right
after the compiler token; build-mode synthesis requires a declared standard
and fails (KeyError) without one, while the metadata-mode command carries the
`-std=` token exactly when the project declares a standard. -/
theorem build_command_token_shape (c : Config) (m : ModeConfig) (a : Env)
    (g : SourceGroup) (f d : String) :
    (∀ s, c.project.standard = some s →
      build_compile_command c g f d (setup_environment c m a) =
        some (specBuildModeTokensStd c g f d (setup_environment c m a) s,
          objectFileFor d f)) ∧
    (c.project.standard = none →
      build_compile_command c g f d (setup_environment c m a) = none) ∧
    (∀ s, c.project.standard = some s →
      gen_cmd_parts f c g = specMetadataTokens c g f ["-std=" ++ s]) ∧
    (c.project.standard = none →
      gen_cmd_parts f c g = specMetadataTokens c g f []) := by
  refine ⟨?_, ?_, ?_, ?_⟩
  · intro s hs
    unfold build_compile_command specBuildModeTokensStd specBuildModeTail
    rw [hs, buildCompilerToken_resolved c m a, buildFlagTokens_resolved c m a,
      buildCppTokens_eq]
  · intro hs
    unfold build_compile_command
    rw [hs]
  · intro s hs
    unfold gen_cmd_parts specMetadataTokens metaStdTokens
    rw [hs]
  · intro hs
    unfold gen_cmd_parts specMetadataTokens metaStdTokens
    rw [hs]

/-- Counterexample to C1 as stated: for a concrete C project declaring
`standard: c11`, the synthesized build-mode command is not the claimed token
sequence (the command carries `-std=c11` as its second token, which the
claimed sequence omits). -/
theorem build_command_token_shape_counterexample :
    build_compile_command cfg0 grp0 "src/main.c" "build"
        (setup_environment cfg0 mode0 (fun _ => none)) ≠
      some (specBuildModeTokens cfg0 grp0 "src/main.c" "build"
          (setup_environment cfg0 mode0 (fun _ => none)),
        objectFileFor "build" "src/main.c") := by
  decide

/-- Witness for C1 (amended) at a concrete config with a declared standard. -/
theorem build_command_token_shape_witness :
    cfg0.project.standard = some "c11" ∧
    build_compile_command cfg0 grp0 "src/main.c" "build"
        (setup_environment cfg0 mode0 (fun _ => none)) =
      some (specBuildModeTokensStd cfg0 grp0 "src/main.c" "build"
          (setup_environment cfg0 mode0 (fun _ => none)) "c11",
        objectFileFor "build" "src/main.c") :=
  ⟨rfl,
    (build_command_token_shape cfg0 mode0 (fun _ => none) grp0 "src/main.c" "build").1
      "c11" rfl⟩

/-! ### C3: compile-then-link ordering and fail-fast behaviour -/

theorem compileAll_all_ok (files : List String) (exitOk : String → Bool)
    (h : ∀ f ∈ files, exitOk f = true) :
    compileAll files exitOk = (files.map .compileInvoked, true) := by
  induction files with
  | nil => rfl
  | cons f rest ih =>
    have hf : exitOk f = true := h f (by simp)
    simp [compileAll, hf, ih (fun g hg => h g (by simp [hg]))]

theorem compileAll_first_fail (files : List String) (exitOk : String → Bool)
    (f : String) (h : files.find? (fun u => !(exitOk u)) = some f) :
    compileAll files exitOk =
      ((files.takeWhile exitOk).map .compileInvoked ++
        [.compileInvoked f, .compileFailed f], false) := by
  induction files with
  | nil => simp [List.find?] at h
  | cons g rest ih =>
    cases hg : exitOk g
    · rw [List.find?_cons_of_pos _ (by simp [hg])] at h
      have hgf : g = f := Option.some.inj h
      subst hgf
      simp [compileAll, hg, List.takeWhile_cons, List.takeWhile]
    · rw [List.find?_cons_of_neg _ (by simp [hg])] at h
      simp [compileAll, hg, List.takeWhile_cons, ih h]

/-- C3: once the first compile exits non-zero, the build reports exactly one
`CompileFailed` naming that file, never invokes the link step, and compiles
no file beyond the failing one (the event trace is exactly the successful
prefix, the failing invocation and its failure report); conversely, a link
invocation implies every compile exited successfully. -/
theorem build_halts_on_first_compile_failure (files : List String)
    (exitOk : String → Bool) (linkOk : Bool) :
    (∀ f, files.find? (fun u => !(exitOk u)) = some f →
      runBuildPipeline files exitOk linkOk =
          (files.takeWhile exitOk).map BuildEvent.compileInvoked ++
            [BuildEvent.compileInvoked f, BuildEvent.compileFailed f] ∧
        BuildEvent.linkInvoked ∉ runBuildPipeline files exitOk linkOk ∧
        (runBuildPipeline files exitOk linkOk).count (BuildEvent.compileFailed f) = 1 ∧
        ∀ g, BuildEvent.compileFailed g ∈ runBuildPipeline files exitOk linkOk →
          g = f) ∧
    (BuildEvent.linkInvoked ∈ runBuildPipeline files exitOk linkOk →
      ∀ g ∈ files, exitOk g = true) := by
  constructor
  · intro f hf
    have hca := compileAll_first_fail files exitOk f hf
    have hrun : runBuildPipeline files exitOk linkOk =
        (files.takeWhile exitOk).map BuildEvent.compileInvoked ++
          [BuildEvent.compileInvoked f, BuildEvent.compileFailed f] := by
      unfold runBuildPipeline
      rw [hca]
      rfl
    refine ⟨hrun, ?_, ?_, ?_⟩
    · rw [hrun]
      intro hmem
      rcases List.mem_append.mp hmem with hmem | hmem
      · obtain ⟨x, _, hx⟩ := List.mem_map.mp hmem
        exact BuildEvent.noConfusion hx
      · simp at hmem
    · rw [hrun, List.count_append]
      have h1 : ((files.takeWhile exitOk).map BuildEvent.compileInvoked).count
          (BuildEvent.compileFailed f) = 0 := by
        rw [List.count_eq_zero]
        intro hmem
        obtain ⟨x, _, hx⟩ := List.mem_map.mp hmem
        exact BuildEvent.noConfusion hx
      rw [h1]
      simp
    · rw [hrun]
      intro g hg
      rcases List.mem_append.mp hg with hmem | hmem
      · obtain ⟨x, _, hx⟩ := List.mem_map.mp hmem
        exact BuildEvent.noConfusion hx
      · simpa using hmem
  · intro hlink g hg
    cases hfind : files.find? (fun u => !(exitOk u)) with
    | none =>
      have := List.find?_eq_none.mp hfind g hg
      simpa using this
    | some f =>
      exfalso
      have hca := compileAll_first_fail files exitOk f hfind
      have hrun : runBuildPipeline files exitOk linkOk =
          (files.takeWhile exitOk).map BuildEvent.compileInvoked ++
            [BuildEvent.compileInvoked f, BuildEvent.compileFailed f] := by
        unfold runBuildPipeline
        rw [hca]
        rfl
      rw [hrun] at hlink
      rcases List.mem_append.mp hlink with hmem | hmem
      · obtain ⟨x, _, hx⟩ := List.mem_map.mp hmem
        exact BuildEvent.noConfusion hx
      · simp at hmem

/-- Witness for C3: three files where the second compile fails; the trace is
the two invocations up to the failure plus exactly one failure report. -/
theorem build_halts_on_first_compile_failure_witness :
    ["a.c", "b.c", "c.c"].find? (fun u => !((fun v => v != "b.c") u)) = some "b.c" ∧
    runBuildPipeline ["a.c", "b.c", "c.c"] (fun v => v != "b.c") true =
      [BuildEvent.compileInvoked "a.c", BuildEvent.compileInvoked "b.c",
        BuildEvent.compileFailed "b.c"] :=
  ⟨by decide,
    by
      have h := (build_halts_on_first_compile_failure ["a.c", "b.c", "c.c"]
        (fun v => v != "b.c") true).1 "b.c" (by decide)
      exact h.1⟩

/-! ### C4: mode validation -/

/-- C4: a requested mode absent from `build.modes` (or with no `modes` map at
all) always fails with `ModeNotFound`; for a mode that exists, the validation
fails with `MissingSourceGroups` exactly when the mode's `source_groups` key
is omitted or is an empty list, and succeeds otherwise. -/
theorem mode_validation_total (c : Config) (mode : String) :
    (modesLookup c mode = none →
      validate_mode c mode = .error (.modeNotFound mode)) ∧
    (∀ mc, modesLookup c mode = some mc →
      ((validate_mode c mode = .error (.missingSourceGroups mode)) ↔
        (mc.source_groups = none ∨ mc.source_groups = some [])) ∧
      (∀ g gs, mc.source_groups = some (g :: gs) →
        validate_mode c mode = .ok mc)) := by
  constructor
  · intro h
    unfold validate_mode
    rw [h]
  · intro mc h
    constructor
    · unfold validate_mode
      rw [h]
      cases hsg : mc.source_groups with
      | none => simp [hsg]
      | some l =>
        cases l with
        | nil => simp [hsg]
        | cons g gs => simp [hsg]
    · intro g gs hsg
      unfold validate_mode
      rw [h]
      simp [hsg]

/-- Witness for C4: requesting the undeclared mode `release` on a config
declaring only `debug` yields `ModeNotFound`. -/
theorem mode_validation_total_witness :
    modesLookup cfg0 "release" = none ∧
    validate_mode cfg0 "release" = .error (.modeNotFound "release") :=
  ⟨by decide, (mode_validation_total cfg0 "release").1 (by decide)⟩

/-! ### C5: discovery extension sets -/

theorem mem_insertSorted (x y : String) (l : List String) :
    y ∈ insertSorted x l ↔ y = x ∨ y ∈ l := by
  induction l with
  | nil => simp [insertSorted]
  | cons z zs ih =>
    unfold insertSorted
    by_cases h : x ≤ z
    · rw [if_pos h]
      simp [List.mem_cons]
    · rw [if_neg h]
      simp [List.mem_cons, ih]
      tauto

theorem mem_sortStrings (y : String) (l : List String) :
    y ∈ sortStrings l ↔ y ∈ l := by
  induction l with
  | nil => simp [sortStrings]
  | cons x xs ih => simp [sortStrings, mem_insertSorted, ih]

theorem contains_iff_mem (l : List String) (x : String) :
    l.contains x = true ↔ x ∈ l := List.elem_iff

theorem find_gen_mem (fs : FileSystem) (dirs : List String) (f : String) :
    f ∈ find_source_files_gen fs dirs none ↔
      ∃ d ∈ dirs, ∃ entries, fs.listDir d = some entries ∧ f ∈ entries ∧
        strEndsWith f ".c" = true := by
  unfold find_source_files_gen
  rw [mem_sortStrings]
  simp only [List.mem_flatMap]
  constructor
  · rintro ⟨d, hd, hf⟩
    cases hld : fs.listDir d with
    | none => rw [hld] at hf; simp at hf
    | some entries =>
      rw [hld] at hf
      simp only [Option.getD_none, Option.getD_some, List.mem_flatMap,
        List.mem_filter, List.mem_singleton] at hf
      obtain ⟨e, he, hfe, hfc⟩ := hf
      subst he
      exact ⟨d, hd, entries, hld, hfe, hfc⟩
  · rintro ⟨d, hd, entries, hld, hfe, hfc⟩
    refine ⟨d, hd, ?_⟩
    rw [hld]
    simp [List.mem_flatMap, List.mem_filter, hfe, hfc]

theorem find_build_mem (fs : FileSystem) (dirs : List String) (f : String) :
    f ∈ find_source_files_build fs dirs ↔
      ∃ d ∈ dirs, ∃ entries, fs.listDir d = some entries ∧ f ∈ entries ∧
        pathSuffix f ∈ buildExtensions := by
  unfold find_source_files_build
  simp only [List.mem_flatMap]
  constructor
  · rintro ⟨d, hd, hf⟩
    cases hld : fs.listDir d with
    | none => rw [hld] at hf; simp at hf
    | some entries =>
      rw [hld] at hf
      simp only [List.mem_filter, contains_iff_mem] at hf
      exact ⟨d, hd, entries, hld, hf.1, hf.2⟩
  · rintro ⟨d, hd, entries, hld, hfe, hfc⟩
    refine ⟨d, hd, ?_⟩
    rw [hld]
    simp [List.mem_filter, contains_iff_mem, hfe, hfc]

/-- C5 (amended): neither compilation path derives its extension set from the
declared project language.  The metadata-generation path discovers exactly
the files ending in `.c` (its discovery is always invoked with the default
extension argument), the build path discovers exactly the files whose suffix
is one of `.c/.cpp/.cc/.cxx`, and every record the generator emits names a
`.c` file regardless of the config's language. -/
theorem discovery_extension_sets (fs : FileSystem) (dirs : List String)
    (f : String) :
    (f ∈ find_source_files_gen fs dirs none ↔
      ∃ d ∈ dirs, ∃ entries, fs.listDir d = some entries ∧ f ∈ entries ∧
        strEndsWith f ".c" = true) ∧
    (f ∈ find_source_files_build fs dirs ↔
      ∃ d ∈ dirs, ∃ entries, fs.listDir d = some entries ∧ f ∈ entries ∧
        pathSuffix f ∈ buildExtensions) ∧
    (∀ cwd c r, r ∈ generate_compile_commands cwd fs c →
      strEndsWith r.file ".c" = true) := by
  refine ⟨find_gen_mem fs dirs f, find_build_mem fs dirs f, ?_⟩
  intro cwd c r hr
  unfold generate_compile_commands at hr
  simp only [List.mem_flatMap, List.mem_map] at hr
  obtain ⟨g, hg, f', hf', hrec⟩ := hr
  have hfile : r.file = f' := by rw [← hrec]; rfl
  rw [hfile]
  obtain ⟨d, hd, entries, hld, hfe, hfc⟩ :=
    (find_gen_mem fs g.source_dirs f').mp hf'
  exact hfc

/-- Counterexample to C5 as stated: for a C++-family project, the
metadata-generation path still discovers only the `.c` file (missing the
`.cpp` one), and the build path also picks up the `.c` file — neither uses
the claimed language-derived extension set. -/
theorem discovery_extension_sets_counterexample :
    cfgCpp.project.language = some "cpp" ∧
    find_source_files_gen fs5 ["src"] none = ["src/b.c"] ∧
    (generate_compile_commands "/proj" fs5 cfgCpp).map CommandRecord.file =
      ["src/b.c"] ∧
    find_source_files_build fs5 ["src"] = ["src/a.cpp", "src/b.c"] := by
  decide

/-- Witness for C5 (amended): concrete membership through the
characterization. -/
theorem discovery_extension_sets_witness :
    "src/b.c" ∈ find_source_files_gen fs5 ["src"] none :=
  (discovery_extension_sets fs5 ["src"] "src/b.c").1.mpr
    ⟨"src", by decide, ["src/a.cpp", "src/b.c"], by decide, by decide, by decide⟩

/-! ### C6: the watch snapshot and the regeneration trigger -/

theorem mem_setAsList (x : String) (l : List String) :
    x ∈ setAsList l ↔ x ∈ l := by
  induction l with
  | nil => simp [setAsList]
  | cons d rest ih =>
    unfold setAsList
    by_cases h : d ∈ rest
    · rw [if_pos h, ih]
      simp only [List.mem_cons]
      constructor
      · exact Or.inr
      · rintro (rfl | hx)
        · exact h
        · exact hx
    · rw [if_neg h]
      simp [List.mem_cons, ih]

theorem nodup_setAsList (l : List String) : (setAsList l).Nodup := by
  induction l with
  | nil => simp [setAsList]
  | cons d rest ih =>
    unfold setAsList
    by_cases h : d ∈ rest
    · rw [if_pos h]; exact ih
    · rw [if_neg h]
      refine List.nodup_cons.mpr ⟨?_, ih⟩
      intro hmem
      exact h ((mem_setAsList d rest).mp hmem)

theorem snapLookup_map_mtime (m : String → Nat) (files : List String)
    (p : String) :
    snapLookup (files.map fun f => (f, m f)) p =
      if p ∈ files then some (m p) else none := by
  induction files with
  | nil => simp [snapLookup]
  | cons f rest ih =>
    simp only [List.map_cons, snapLookup]
    by_cases hf : f = p
    · subst hf
      rw [if_pos rfl, if_pos (by simp)]
    · rw [if_neg hf, ih]
      by_cases hp : p ∈ rest
      · rw [if_pos hp, if_pos (by simp [hp])]
      · have hnp : p ∉ f :: rest := by
          intro hcon
          rcases List.mem_cons.mp hcon with hh | hh
          · exact hf hh.symm
          · exact hp hh
        rw [if_neg hp, if_neg hnp]

theorem snapshot_lookup_char (fs : FileSystem) (dirs exts : List String)
    (p : String) (t : Nat) :
    snapLookup (snapshot_mtimes fs dirs exts) p = some t ↔
      p ∈ snapshotFiles fs dirs exts ∧ t = fs.mtime p := by
  unfold snapshot_mtimes
  rw [snapLookup_map_mtime]
  by_cases hp : p ∈ snapshotFiles fs dirs exts
  · rw [if_pos hp]
    simp [hp, eq_comm]
  · rw [if_neg hp]
    simp [hp]

theorem snapshotFiles_mem (fs : FileSystem) (dirs exts : List String)
    (p : String) :
    p ∈ snapshotFiles fs dirs exts ↔
      ∃ d ∈ dirs, ∃ e ∈ exts, ∃ entries, fs.listDir d = some entries ∧
        p ∈ entries ∧ strEndsWith p e = true := by
  unfold snapshotFiles
  simp only [List.mem_flatMap]
  constructor
  · rintro ⟨d, hd, e, he, hp⟩
    cases hld : fs.listDir d with
    | none => rw [hld] at hp; simp at hp
    | some entries =>
      rw [hld] at hp
      simp only [Option.getD_some, List.mem_filter] at hp
      exact ⟨d, hd, e, he, entries, hld, hp.1, hp.2⟩
  · rintro ⟨d, hd, e, he, entries, hld, hpe, hpc⟩
    refine ⟨d, hd, e, he, ?_⟩
    rw [hld]
    simp [List.mem_filter, hpe, hpc]

theorem watched_dirs_mem (fs : FileSystem) (c : Config) (d : String) :
    d ∈ watched_dirs fs c ↔
      ((∃ g ∈ c.source_groups, d ∈ g.source_dirs ∨ d ∈ g.include_dirs) ∧
        (fs.listDir d).isSome = true) := by
  unfold watched_dirs declaredWatchDirs
  rw [mem_setAsList, List.mem_filter]
  simp only [List.mem_flatMap, List.mem_append]

/-- C6 (amended): the watch snapshot covers exactly the declared source and
include directories that exist, deduplicated; a path is snapshotted with its
mtime exactly when it lies under a watched directory and matches one of the
watch extensions; the watch extensions include the header extension `.h` only
for non-C++ languages (C++-family projects watch exactly `.cpp/.cc/.cxx`,
with no header extension); and a detected snapshot difference triggers
exactly one regeneration, while equality triggers none. -/
theorem watch_snapshot_characterization (c : Config) (fs : FileSystem) :
    (∀ d, d ∈ watched_dirs fs c ↔
      ((∃ g ∈ c.source_groups, d ∈ g.source_dirs ∨ d ∈ g.include_dirs) ∧
        (fs.listDir d).isSome = true)) ∧
    (watched_dirs fs c).Nodup ∧
    (∀ dirs exts p t, snapLookup (snapshot_mtimes fs dirs exts) p = some t ↔
      p ∈ snapshotFiles fs dirs exts ∧ t = fs.mtime p) ∧
    (∀ p, p ∈ snapshotFiles fs (watched_dirs fs c) (watch_extensions c) ↔
      ∃ d ∈ watched_dirs fs c, ∃ e ∈ watch_extensions c, ∃ entries,
        fs.listDir d = some entries ∧ p ∈ entries ∧ strEndsWith p e = true) ∧
    (isCpp c = true → watch_extensions c = [".cpp", ".cc", ".cxx"]) ∧
    (isCpp c = false → watch_extensions c = [".c", ".h"]) ∧
    (∀ last current,
      (snapshotEquals current last = false → watch_step last current = (1, current)) ∧
      (snapshotEquals current last = true → watch_step last current = (0, last))) := by
  refine ⟨watched_dirs_mem fs c, nodup_setAsList _,
    snapshot_lookup_char fs, snapshotFiles_mem fs _ _, ?_, ?_, ?_⟩
  · intro h
    unfold watch_extensions
    unfold isCpp at h
    rw [if_pos h]
  · intro h
    unfold watch_extensions
    unfold isCpp at h
    rw [if_neg (by rw [h]; exact Bool.false_ne_true)]
  · intro last current
    constructor
    · intro h
      unfold watch_step
      rw [if_neg (by rw [h]; exact Bool.false_ne_true)]
    · intro h
      unfold watch_step
      rw [if_pos h]

/-- Counterexample to C6 as stated: a C++-family project's snapshot omits
header files — `src/a.h` sits in an existing watched directory yet is not
snapshotted, because the C++ watch extensions contain no header extension. -/
theorem watch_snapshot_characterization_counterexample :
    configLanguage cfgCpp = "cpp" ∧
    strEndsWith "src/a.h" ".h" = true ∧
    snapLookup (snapshot_mtimes fsW (watched_dirs fsW cfgCpp)
      (watch_extensions cfgCpp)) "src/a.h" = none ∧
    snapLookup (snapshot_mtimes fsW (watched_dirs fsW cfgCpp)
      (watch_extensions cfgCpp)) "src/b.cpp" = some 5 := by
  decide

/-- Witness for C6 (amended): concrete snapshot lookup through the
characterization. -/
theorem watch_snapshot_characterization_witness :
    snapLookup (snapshot_mtimes fsW ["src"] [".cpp"]) "src/b.cpp" = some 5 :=
  ((watch_snapshot_characterization cfgCpp fsW).2.2.1 ["src"] [".cpp"]
    "src/b.cpp" 5).mpr ⟨by decide, by decide⟩

/-! ### C7 and C10: the clean operation -/

theorem cleanGo_allFiles (entries : List DirEntry)
    (h : ∀ e ∈ entries, e.isDir = false) :
    cleanGo entries =
      .ok ((entries.filter cleanTarget).length,
        entries.filter (fun e => !cleanTarget e)) := by
  induction entries with
  | nil => rfl
  | cons e rest ih =>
    have he : e.isDir = false := h e (by simp)
    have ihr := ih (fun x hx => h x (by simp [hx]))
    unfold cleanGo
    by_cases ht : cleanTarget e = true
    · rw [if_pos ht, if_neg (by simp [he]), ihr]
      simp [List.filter_cons, ht]
    · rw [if_neg ht, ihr]
      simp [List.filter_cons, ht]

theorem clean_build_directory_allFiles (entries : List DirEntry)
    (h : ∀ e ∈ entries, e.isDir = false) :
    clean_build_directory (some entries) = .ok (cleanOutcome (some entries)) := by
  simp only [clean_build_directory, cleanOutcome, cleanGo_allFiles entries h]

theorem clean_modes_allFiles (ds : List (Option (List DirEntry)))
    (h : ∀ l, some l ∈ ds → ∀ e ∈ l, e.isDir = false) :
    clean_modes ds = .ok (ds.map cleanOutcome) := by
  induction ds with
  | nil => rfl
  | cons d rest ih =>
    unfold clean_modes
    have hd : clean_build_directory d = .ok (cleanOutcome d) := by
      cases d with
      | none => rfl
      | some entries =>
        exact clean_build_directory_allFiles entries (h entries (by simp))
    rw [hd, ih (fun l hl => h l (by simp [hl]))]
    rfl

theorem cleanSecondRun_allFiles (entries : List DirEntry)
    (h : ∀ e ∈ entries, e.isDir = false) :
    ∃ r2, cleanSecondRun entries = .ok r2 ∧
      ∀ res2, r2 = some res2 → res2.removed = 0 := by
  have hstate : dirStateAfter entries =
      if (entries.filter (fun e => !cleanTarget e)).isEmpty then none
      else some (entries.filter (fun e => !cleanTarget e)) := by
    simp only [dirStateAfter, clean_build_directory_allFiles entries h, cleanOutcome]
  unfold cleanSecondRun
  rw [hstate]
  by_cases hre : (entries.filter (fun e => !cleanTarget e)).isEmpty = true
  · refine ⟨none, ?_, ?_⟩
    · rw [if_pos hre]
      rfl
    · intro res2 hcon
      cases hcon
  · have hfalse : (entries.filter (fun e => !cleanTarget e)).isEmpty = false := by
      cases hx : (entries.filter (fun e => !cleanTarget e)).isEmpty
      · rfl
      · exact absurd hx hre
    have hrem : ∀ e ∈ entries.filter (fun e => !cleanTarget e), e.isDir = false := by
      intro e he
      exact h e (List.mem_of_mem_filter he)
    have hfilter0 :
        (entries.filter (fun e => !cleanTarget e)).filter cleanTarget = [] := by
      rw [List.filter_eq_nil_iff]
      intro a ha
      have := List.of_mem_filter ha
      simp only [Bool.not_eq_true'] at this
      simp [this]
    have hfilter1 :
        (entries.filter (fun e => !cleanTarget e)).filter (fun e => !cleanTarget e) =
          entries.filter (fun e => !cleanTarget e) := by
      rw [List.filter_eq_self]
      intro a ha
      exact (List.mem_filter.mp ha).2
    refine ⟨some ⟨0, entries.filter (fun e => !cleanTarget e), false⟩, ?_, ?_⟩
    · rw [if_neg hre, clean_build_directory_allFiles _ hrem]
      simp only [cleanOutcome, hfilter0, hfilter1, hfalse, List.length_nil]
    · intro res2 hres
      cases hres
      rfl

/-- C7: cleaning a mode's output directory of plain files removes exactly the
entries whose suffix is `.o`, empty, `.exe` or `.elf`, reports their count,
keeps the rest, removes the directory itself exactly when nothing remains,
treats a missing directory as a no-op, removes zero files without error on an
immediate second run, and, when no mode is given, applies the same clean to
every declared mode's directory in turn. -/
theorem clean_removes_artifacts (entries : List DirEntry)
    (h : ∀ e ∈ entries, e.isDir = false) :
    clean_build_directory (some entries) =
        .ok (some { removed := (entries.filter cleanTarget).length
                    remaining := entries.filter (fun e => !cleanTarget e)
                    dirRemoved := (entries.filter (fun e => !cleanTarget e)).isEmpty }) ∧
    (∀ e : DirEntry, cleanTarget e = true ↔
      (pathSuffix e.name = ".o" ∨ pathSuffix e.name = "" ∨
        pathSuffix e.name = ".exe" ∨ pathSuffix e.name = ".elf")) ∧
    clean_build_directory none = .ok none ∧
    (∃ r2, cleanSecondRun entries = .ok r2 ∧
      ∀ res2, r2 = some res2 → res2.removed = 0) ∧
    (∀ ds : List (Option (List DirEntry)),
      (∀ l, some l ∈ ds → ∀ e ∈ l, e.isDir = false) →
      clean_modes ds = .ok (ds.map cleanOutcome)) := by
  refine ⟨clean_build_directory_allFiles entries h, ?_, rfl,
    cleanSecondRun_allFiles entries h, clean_modes_allFiles⟩
  intro e
  simp only [cleanTarget, Bool.or_eq_true, beq_iff_eq, contains_iff_mem,
    List.mem_cons, List.mem_singleton, List.not_mem_nil, or_false]

/-- Witness for C7: a directory holding `{a.o, b.o, prog}` loses all three
files and is itself removed; the hypothesis (plain files only) is discharged
concretely. -/
theorem clean_removes_artifacts_witness :
    clean_build_directory
        (some [⟨"a.o", false⟩, ⟨"b.o", false⟩, ⟨"prog", false⟩]) =
      .ok (some { removed := 3, remaining := [], dirRemoved := true }) :=
  (clean_removes_artifacts [⟨"a.o", false⟩, ⟨"b.o", false⟩, ⟨"prog", false⟩]
    (by decide)).1

theorem cleanGo_error_of_dir_target (entries : List DirEntry)
    (h : ∃ e ∈ entries, cleanTarget e = true ∧ e.isDir = true) :
    ∃ nm, cleanGo entries = .error (.isADirectory nm) := by
  induction entries with
  | nil => simp at h
  | cons f rest ih =>
    unfold cleanGo
    by_cases ht : cleanTarget f = true
    · by_cases hd : f.isDir = true
      · exact ⟨f.name, by rw [if_pos ht, if_pos hd]⟩
      · have hrest : ∃ e ∈ rest, cleanTarget e = true ∧ e.isDir = true := by
          obtain ⟨e, he, het, hed⟩ := h
          rcases List.mem_cons.mp he with rfl | hmem
          · exact absurd hed hd
          · exact ⟨e, hmem, het, hed⟩
        obtain ⟨nm, hnm⟩ := ih hrest
        refine ⟨nm, ?_⟩
        rw [if_pos ht, if_neg hd, hnm]
    · have hrest : ∃ e ∈ rest, cleanTarget e = true ∧ e.isDir = true := by
        obtain ⟨e, he, het, hed⟩ := h
        rcases List.mem_cons.mp he with rfl | hmem
        · exact absurd het ht
        · exact ⟨e, hmem, het, hed⟩
      obtain ⟨nm, hnm⟩ := ih hrest
      refine ⟨nm, ?_⟩
      rw [if_neg ht, hnm]

/-- C10: the removal loop treats every entry whose suffix is empty or one of
`.o/.exe/.elf` as a plain file to unlink; an extensionless subdirectory is
such a target, so cleaning a directory that directly contains one raises an
uncaught error instead of skipping it and completing. -/
theorem clean_unlinks_directories (entries : List DirEntry) (e : DirEntry)
    (he : e ∈ entries) (hdir : e.isDir = true)
    (hsuf : pathSuffix e.name = "") :
    cleanTarget e = true ∧
    ∃ nm, clean_build_directory (some entries) = .error (.isADirectory nm) := by
  have ht : cleanTarget e = true := by
    unfold cleanTarget
    rw [hsuf]
    decide
  refine ⟨ht, ?_⟩
  obtain ⟨nm, hnm⟩ := cleanGo_error_of_dir_target entries ⟨e, he, ht, hdir⟩
  refine ⟨nm, ?_⟩
  simp only [clean_build_directory, hnm]

/-- Witness for C10: cleaning a directory containing the subdirectory `deps`
errors out. -/
theorem clean_unlinks_directories_witness :
    cleanTarget ⟨"deps", true⟩ = true ∧
    ∃ nm, clean_build_directory (some [⟨"a.o", false⟩, ⟨"deps", true⟩]) =
      .error (.isADirectory nm) :=
  clean_unlinks_directories [⟨"a.o", false⟩, ⟨"deps", true⟩] ⟨"deps", true⟩
    (by decide) rfl (by decide)

/-! ### C8: metadata self-verification -/

/-- C8 (amended): the generator CLI's write of the metadata file is followed
by a parse-verification and the process fails when that verification fails,
but the writes performed by the watch loop (both the startup write and every
regeneration rewrite) are not followed by any verification. -/
theorem metadata_write_verification :
    (∀ ne ok : Bool, everyWriteVerified (generator_main_trace ne ok).1 = true) ∧
    (generator_main_trace true true).2 = true ∧
    (generator_main_trace true false).2 = false ∧
    everyWriteVerified watch_startup_trace = false ∧
    everyWriteVerified watch_regen_trace = false := by
  decide

/-- Counterexample to C8 as stated: the watch loop's regeneration body writes
the metadata file, yet no verification action follows the write. -/
theorem metadata_write_verification_counterexample :
    MetaAction.writeMetadata ∈ watch_regen_trace ∧
    everyWriteVerified watch_regen_trace = false := by
  decide

/-! ### C9: the watcher's generator import -/

/-- C9: the watcher imports the module `compile_commands_generate`, which is
not among the module names this repository's source files provide (the
generator shipped here is named `generate_compile_commands`), so the import
cannot be resolved against these sources and the watch program fails at
startup, before any snapshotting or regeneration. -/
theorem watch_import_mismatch :
    watch_import_resolves = false ∧
    watch_imported_generator_module ∉ repository_modules ∧
    "generate_compile_commands" ∈ repository_modules := by
  decide

end CompileCommands
